import Mathlib

/-!
Verification of the delivery subsystem of the mcp-analytics TypeScript SDK:
the retry/backoff engine (src/retry.ts), the error classifier and metadata
merge (src/utils.ts), the transport attempt (src/client.ts) and the tracking
orchestrator (src/tracker.ts).  Each definition is a shallow embedding of the
corresponding source function; effectful calls (fetch outcomes, the wrapped
business function, the per-attempt transport results, elapsed wall-clock
time) are passed in as explicit oracles.
-/

/-! ## JSON values and metadata (src/types.ts: MCPMetadata; src/utils.ts: mergeMetadata)

A JavaScript object is modelled as an association list with the usual
first-key-wins lookup; `spreadObj a b` models the object spread
expression producing the union of `a` and `b` with the keys of `b`
winning on collision, which is exactly what `return { ...acc, ...metadata }`
computes in `mergeMetadata`. -/

inductive JsonValue where
  | num (n : Int)
  | str (s : String)
  | boolVal (b : Bool)
  | null
  | obj (fields : List (String × JsonValue))
  | arr (elems : List JsonValue)

/-- `MCPMetadata` is `Record<string, unknown>`: an object, i.e. a keyed list
of JSON values. -/
abbrev MCPMetadata := List (String × JsonValue)

/-- Property access `o[k]` on an object: the value at key `k`, if present. -/
def objLookup (k : String) : List (String × JsonValue) → Option JsonValue
  | [] => none
  | (k1, v) :: rest => if k1 = k then some v else objLookup k rest

/-- The JavaScript object spread `{ ...a, ...b }`: the keys of `a` in order,
each bound to the value from `b` when `b` also has the key, followed by the
keys of `b` that `a` lacks. -/
def spreadObj (a b : List (String × JsonValue)) : List (String × JsonValue) :=
  a.map (fun kv =>
    (kv.1,
      match objLookup kv.1 b with
      | some w => w
      | none => kv.2))
  ++ b.filter (fun kv => (objLookup kv.1 a).isNone)

/-- src/utils.ts `mergeMetadata(...metadatas)`: a reduce over the fragments
starting from the empty object, skipping undefined fragments and spreading
the rest; later fragments override earlier ones shallowly. -/
def mergeMetadata (metadatas : List (Option MCPMetadata)) : MCPMetadata :=
  metadatas.foldl
    (fun acc metadata =>
      match metadata with
      | none => acc
      | some md => spreadObj acc md)
    []

/-! ## Errors and the retryability classifier (src/utils.ts: isRetryableError) -/

/-- A JavaScript error value as the classifier inspects it: its `name`, its
`message`, and the ad-hoc numeric `status` field the transport attaches to
HTTP errors (`none` models an absent field, and the source's truthiness test
`if (error.status)` is additionally false for a present `0`). -/
structure JSError where
  name : String
  message : String
  status : Option Nat
deriving DecidableEq, Repr

/-- Whether `pat` occurs at the start of `s` (character lists). -/
def startsWithChars (pat s : List Char) : Bool :=
  match pat, s with
  | [], _ => true
  | _ :: _, [] => false
  | p :: ps, c :: cs => p == c && startsWithChars ps cs

/-- Whether `pat` occurs somewhere inside `s` (character lists). -/
def occursIn (pat : List Char) : List Char → Bool
  | [] => pat.isEmpty
  | c :: cs => startsWithChars pat (c :: cs) || occursIn pat cs

/-- JavaScript `s.includes(pat)`: substring test. -/
def strContains (s pat : String) : Bool := occursIn pat.toList s.toList

/-- src/utils.ts `isRetryableError(error)`: network-shaped errors (name
`TypeError`, or a message mentioning `fetch`) are retryable; otherwise a
truthy `status` in `[400, 500)` is not retryable and a status `>= 500` is;
everything else falls through to the default `true`. -/
def isRetryableError (e : JSError) : Bool :=
  if e.name = "TypeError" ∨ strContains e.message "fetch" = true then
    true
  else
    match e.status with
    | some s =>
      if s ≠ 0 then
        if 400 ≤ s ∧ s < 500 then false
        else if 500 ≤ s then true
        else true
      else true
    | none => true

/-! ## Retry engine (src/retry.ts: RetryHandler.execute)

The effectful operation is modelled as an oracle `op : Nat → Except JSError T`
giving the outcome of its `i`-th call (0-indexed).  `executeFrom op attempt
fuel` runs the loop body from iteration `attempt` with `fuel = maxRetries -
attempt` iterations left, so `fuel = 0` exactly when `attempt === maxRetries`.
The trace records the result, how many times the operation was invoked, and
the backoff delays slept between attempts, in order. -/

structure RetryTrace (T : Type) where
  result : Except JSError T
  attempts : Nat
  delays : List Nat

/-- src/retry.ts line 34: `Math.min(100 * Math.pow(2, attempt), 3000)`. -/
def backoffDelay (attempt : Nat) : Nat := min (100 * 2 ^ attempt) 3000

/-- The loop of `RetryHandler.execute`: try the operation; on success return;
on a non-retryable error rethrow; at the last allowed attempt rethrow; else
sleep the backoff delay and continue. -/
def executeFrom {T : Type} (op : Nat → Except JSError T) (attempt fuel : Nat) :
    RetryTrace T :=
  match op attempt with
    | Except.ok v => { result := Except.ok v, attempts := 1, delays := [] }
    | Except.error e =>
      if isRetryableError e = false then
        { result := Except.error e, attempts := 1, delays := [] }
      else
        match fuel with
        | 0 => { result := Except.error e, attempts := 1, delays := [] }
        | f + 1 =>
          let rest := executeFrom op (attempt + 1) f
          { result := rest.result, attempts := rest.attempts + 1,
            delays := backoffDelay attempt :: rest.delays }

namespace RetryHandler

/-- src/retry.ts `RetryHandler.execute(fn)` with `maxRetries` from the
constructor: the loop starts at attempt 0 with `maxRetries` retries left. -/
def execute {T : Type} (maxRetries : Nat) (op : Nat → Except JSError T) : RetryTrace T :=
  executeFrom op 0 maxRetries

end RetryHandler

/-! ## Event payloads and the tracking orchestrator (src/tracker.ts) -/

inductive MCPEventType where
  | invocation
  | success
  | failure
deriving DecidableEq, Repr

/-- src/types.ts `MCPEventPayload`; `none` in an optional field models the
field being absent from the object. -/
structure MCPEventPayload where
  tool_name : String
  event_type : MCPEventType
  duration_ms : Option Nat
  metadata : Option MCPMetadata

/-- src/types.ts `TrackingResult`. -/
structure TrackingResult where
  success : Bool
  error : Option JSError
deriving DecidableEq, Repr

/-- The `{ ok: boolean }` delivery acknowledgement body. -/
structure DeliveryAck where
  ok : Bool
deriving DecidableEq, Repr

/-- The payload literal built inside `MCPTracker.track` (src/tracker.ts lines
33-38): `duration_ms` is spread in only when `durationMs !== undefined`, and
`metadata` only when `metadata` is truthy — every present metadata value is
an object, and objects (including `{}`) are truthy, so presence coincides
with the argument being defined. -/
def mkPayload (toolName : String) (eventType : MCPEventType)
    (metadata : Option MCPMetadata) (durationMs : Option Nat) : MCPEventPayload :=
  { tool_name := toolName,
    event_type := eventType,
    duration_ms := durationMs,
    metadata := metadata }

namespace APIClient

/-- src/client.ts `APIClient.sendEvent(payload)`: one delivery through the
retry handler.  The transport is an oracle giving the classified outcome of
the `i`-th attempt at delivering a given payload. -/
def sendEvent (retries : Nat)
    (attemptResult : MCPEventPayload → Nat → Except JSError DeliveryAck)
    (payload : MCPEventPayload) : Except JSError DeliveryAck :=
  (RetryHandler.execute retries (fun i => attemptResult payload i)).result

end APIClient

namespace MCPTracker

/-- src/tracker.ts `MCPTracker.track`: build the payload, send it through the
client, and convert the outcome — success to `{success: true}`, any thrown
error to `{success: false, error}`.  The `try/catch` around the pipeline is
the `match`: both branches produce a value, so the function never throws. -/
def track (retries : Nat)
    (attemptResult : MCPEventPayload → Nat → Except JSError DeliveryAck)
    (toolName : String) (eventType : MCPEventType)
    (metadata : Option MCPMetadata) (durationMs : Option Nat) : TrackingResult :=
  match APIClient.sendEvent retries attemptResult
      (mkPayload toolName eventType metadata durationMs) with
  | Except.ok _ => { success := true, error := none }
  | Except.error e => { success := false, error := some e }

/-- src/tracker.ts `trackInvocation`: forwards to `track` with event type
`invocation` and no duration. -/
def trackInvocation (retries : Nat)
    (attemptResult : MCPEventPayload → Nat → Except JSError DeliveryAck)
    (toolName : String) (metadata : Option MCPMetadata) : TrackingResult :=
  track retries attemptResult toolName MCPEventType.invocation metadata none

/-- src/tracker.ts `trackSuccess`: forwards to `track` with event type
`success`. -/
def trackSuccess (retries : Nat)
    (attemptResult : MCPEventPayload → Nat → Except JSError DeliveryAck)
    (toolName : String) (metadata : Option MCPMetadata)
    (durationMs : Option Nat) : TrackingResult :=
  track retries attemptResult toolName MCPEventType.success metadata durationMs

/-- src/tracker.ts `trackFailure`: forwards to `track` with event type
`failure`. -/
def trackFailure (retries : Nat)
    (attemptResult : MCPEventPayload → Nat → Except JSError DeliveryAck)
    (toolName : String) (metadata : Option MCPMetadata)
    (durationMs : Option Nat) : TrackingResult :=
  track retries attemptResult toolName MCPEventType.failure metadata durationMs

end MCPTracker

/-! ## The wrap combinator (src/tracker.ts: MCPTracker.wrap)

`wrapRun` is the semantics of one call of the function returned by
`MCPTracker.wrap`.  The wrapped business function and the three metadata
extractors may throw, so each is embedded as an `Except`-valued function; the
elapsed wall-clock duration `Date.now() - startTime` is an oracle `elapsed`.
The run records the call's outcome (`Except.ok none` models resolving to
`undefined` when errors are swallowed), the payloads handed to `track` in
order, and the invocations of the wrapped function with their arguments.
The tracking calls themselves never throw (`track` is total), so their
results cannot influence the run and are not part of the state. -/

structure WrapOptions (TParams TResult TMeta : Type) where
  getMetadata : Option (TParams → TMeta → Except JSError MCPMetadata)
  getOutputMetadata : Option (TResult → Except JSError MCPMetadata)
  getErrorMetadata : Option (JSError → Except JSError MCPMetadata)
  trackInvocation : Bool
  rethrowErrors : Bool

/-- The defaults destructured at the top of `wrap`: no extractors,
`trackInvocation = true`, `rethrowErrors = true`. -/
def defaultWrapOptions {TParams TResult TMeta : Type} : WrapOptions TParams TResult TMeta :=
  { getMetadata := none,
    getOutputMetadata := none,
    getErrorMetadata := none,
    trackInvocation := true,
    rethrowErrors := true }

structure WrapRun (TParams TResult TMeta : Type) where
  result : Except JSError (Option TResult)
  events : List MCPEventPayload
  fnCalls : List (TParams × TMeta)

namespace MCPTracker

/-- One call of the function returned by `MCPTracker.wrap` (src/tracker.ts
lines 93-158).  Each extractor sits in its own inner `try/catch`: a throwing
extractor only makes its fragment `undefined`.  The wrapped function is
always reached and called once with the original arguments; on success a
`success` event with merged metadata and the elapsed duration is tracked and
the original result returned, on a throw a `failure` event is tracked and
then the original error is either rethrown or swallowed into `undefined`
according to `rethrowErrors`. -/
def wrapRun {TParams TResult TMeta : Type} (toolName : String)
    (fn : TParams → TMeta → Except JSError TResult)
    (options : WrapOptions TParams TResult TMeta)
    (params : TParams) (meta : TMeta) (elapsed : Nat) : WrapRun TParams TResult TMeta :=
  let invocationMetadata : Option MCPMetadata :=
    match options.getMetadata with
    | none => none
    | some g =>
      match g params meta with
      | Except.ok md => some md
      | Except.error _ => none
  let invocationEvents : List MCPEventPayload :=
    if options.trackInvocation then
      [mkPayload toolName MCPEventType.invocation invocationMetadata none]
    else []
  match fn params meta with
  | Except.ok result =>
    let outputMetadata : Option MCPMetadata :=
      match options.getOutputMetadata with
      | none => none
      | some g =>
        match g result with
        | Except.ok md => some md
        | Except.error _ => none
    let successMetadata := mergeMetadata [invocationMetadata, outputMetadata]
    { result := Except.ok (some result),
      events := invocationEvents
        ++ [mkPayload toolName MCPEventType.success (some successMetadata) (some elapsed)],
      fnCalls := [(params, meta)] }
  | Except.error e =>
    let errorMetadata : Option MCPMetadata :=
      match options.getErrorMetadata with
      | none => none
      | some g =>
        match g e with
        | Except.ok md => some md
        | Except.error _ => none
    let failureMetadata := mergeMetadata [invocationMetadata, errorMetadata]
    { result := if options.rethrowErrors then Except.error e else Except.ok none,
      events := invocationEvents
        ++ [mkPayload toolName MCPEventType.failure (some failureMetadata) (some elapsed)],
      fnCalls := [(params, meta)] }

end MCPTracker

/-! ## One transport attempt (src/client.ts: the closure inside sendEvent)

The behaviour of `fetch` (and of the response-body reads) is an oracle
`FetchOutcome`; the attempt model records the classified result together
with whether the abort controller cancelled the in-flight request and
whether the timeout timer was cleared — the source clears it both right
after a response arrives and in the `finally` block, so it is cleared on
every exit path. -/

inductive FetchOutcome where
  /-- A 2xx response whose body parsed to the acknowledgement. -/
  | okResponse (ack : DeliveryAck)
  /-- A non-2xx response with its status, best-effort body text (the
  `.catch` on the body read turns a read failure into the empty string) and
  status text. -/
  | httpResponse (status : Nat) (bodyText : String) (statusText : String)
  /-- The fetch promise rejected with an error before the timer fired. -/
  | rejected (e : JSError)
  /-- The timeout timer fired first: the controller aborts the request and
  the fetch promise rejects with an `AbortError`. -/
  | timedOut

structure AttemptTrace where
  result : Except JSError DeliveryAck
  requestAborted : Bool
  timerCleared : Bool

/-- The error thrown for an aborted attempt: the template literal
interpolating the configured timeout, "Request timeout after " followed by
the timeout value and "ms"; a plain `Error` (name `Error`), no `status`
field. -/
def timeoutJSError (timeout : Nat) : JSError :=
  { name := "Error",
    message := "Request timeout after " ++ toString timeout ++ "ms",
    status := none }

/-- The error thrown for a non-2xx response: message
`HTTP status: body-or-statusText`, with the numeric status attached. -/
def httpJSError (status : Nat) (bodyText : String) (statusText : String) : JSError :=
  { name := "Error",
    message := "HTTP " ++ toString status ++ ": "
      ++ (if bodyText = "" then statusText else bodyText),
    status := some status }

namespace APIClient

/-- One attempt of the closure passed to the retry handler inside
`APIClient.sendEvent`: start the abort timer, issue the request, classify
the outcome (`response.ok` is `status` in `[200, 300)`), convert any
`AbortError` into the timeout error, and always clear the timer. -/
def sendEventOnce (timeout : Nat) (outcome : FetchOutcome) : AttemptTrace :=
  match outcome with
  | FetchOutcome.okResponse ack =>
    { result := Except.ok ack, requestAborted := false, timerCleared := true }
  | FetchOutcome.httpResponse status bodyText statusText =>
    { result := Except.error (httpJSError status bodyText statusText),
      requestAborted := false, timerCleared := true }
  | FetchOutcome.rejected e =>
    { result := Except.error
        (if e.name = "AbortError" then timeoutJSError timeout else e),
      requestAborted := false, timerCleared := true }
  | FetchOutcome.timedOut =>
    { result := Except.error (timeoutJSError timeout),
      requestAborted := true, timerCleared := true }

end APIClient


theorem executeFrom_ok {T : Type} (op : Nat → Except JSError T) (attempt fuel : Nat)
    (v : T) (h : op attempt = Except.ok v) :
    executeFrom op attempt fuel =
      { result := Except.ok v, attempts := 1, delays := [] } := by
  rw [executeFrom.eq_def, h]

theorem executeFrom_nonretryable {T : Type} (op : Nat → Except JSError T)
    (attempt fuel : Nat) (e : JSError) (h : op attempt = Except.error e)
    (hr : isRetryableError e = false) :
    executeFrom op attempt fuel =
      { result := Except.error e, attempts := 1, delays := [] } := by
  rw [executeFrom.eq_def, h]
  simp [hr]

theorem executeFrom_last {T : Type} (op : Nat → Except JSError T) (attempt : Nat)
    (e : JSError) (h : op attempt = Except.error e) :
    executeFrom op attempt 0 =
      { result := Except.error e, attempts := 1, delays := [] } := by
  rw [executeFrom.eq_def, h]
  split
  · rename_i v heq
    cases heq
  · rename_i e2 heq
    cases heq
    split <;> rfl

theorem executeFrom_step {T : Type} (op : Nat → Except JSError T) (attempt f : Nat)
    (e : JSError) (h : op attempt = Except.error e) (hr : isRetryableError e = true) :
    executeFrom op attempt (f + 1) =
      { result := (executeFrom op (attempt + 1) f).result,
        attempts := (executeFrom op (attempt + 1) f).attempts + 1,
        delays := backoffDelay attempt :: (executeFrom op (attempt + 1) f).delays } := by
  rw [executeFrom.eq_def, h]
  simp [hr]

/-- If every attempt in the window fails with a retryable error, the loop
performs every attempt, sleeps the backoff delay between consecutive ones,
and propagates the error of the last attempt. -/
theorem executeFrom_allfail {T : Type} (op : Nat → Except JSError T) :
    ∀ fuel attempt : Nat,
    (∀ i, attempt ≤ i → i ≤ attempt + fuel →
      ∃ e, op i = Except.error e ∧ isRetryableError e = true) →
    ∃ e, op (attempt + fuel) = Except.error e ∧
      executeFrom op attempt fuel =
        { result := Except.error e, attempts := fuel + 1,
          delays := (List.range' attempt fuel).map backoffDelay } := by
  intro fuel
  induction fuel with
  | zero =>
    intro attempt h
    obtain ⟨e, he, hr⟩ := h attempt (Nat.le_refl _) (Nat.le_add_right _ _)
    exact ⟨e, he, executeFrom_last op attempt e he⟩
  | succ f ih =>
    intro attempt h
    obtain ⟨e0, he0, hr0⟩ := h attempt (Nat.le_refl _) (Nat.le_add_right _ _)
    obtain ⟨e, he, hexec⟩ := ih (attempt + 1) (fun i h1 h2 => h i (by omega) (by omega))
    have harith : attempt + 1 + f = attempt + (f + 1) := by omega
    refine ⟨e, by rw [← harith]; exact he, ?_⟩
    rw [executeFrom_step op attempt f e0 he0 hr0, hexec]
    rfl

/-- If the first success comes at relative offset `j` inside the window and
every earlier attempt fails with a retryable error, the loop returns that
success after exactly `j + 1` attempts, with the backoff delays of the `j`
failed attempts. -/
theorem executeFrom_success {T : Type} (op : Nat → Except JSError T) :
    ∀ j fuel attempt : Nat, ∀ v : T, j ≤ fuel →
    op (attempt + j) = Except.ok v →
    (∀ i, attempt ≤ i → i < attempt + j →
      ∃ e, op i = Except.error e ∧ isRetryableError e = true) →
    executeFrom op attempt fuel =
      { result := Except.ok v, attempts := j + 1,
        delays := (List.range' attempt j).map backoffDelay } := by
  intro j
  induction j with
  | zero =>
    intro fuel attempt v _ hok _
    exact executeFrom_ok op attempt fuel v hok
  | succ j ih =>
    intro fuel attempt v hle hok hfail
    obtain ⟨e0, he0, hr0⟩ := hfail attempt (Nat.le_refl _) (by omega)
    cases fuel with
    | zero => omega
    | succ f =>
      have hok2 : op (attempt + 1 + j) = Except.ok v := by
        have : attempt + 1 + j = attempt + (j + 1) := by omega
        rw [this]; exact hok
      rw [executeFrom_step op attempt f e0 he0 hr0,
        ih f (attempt + 1) v (by omega) hok2
          (fun i h1 h2 => hfail i (by omega) (by omega))]
      rfl

/-- Claim C2: with maxRetries r, an operation failing with a retryable error
on every attempt is invoked exactly r + 1 times and the last error is
propagated; an operation that first succeeds at attempt j returns that result
with no further attempts. -/
theorem claim_C2_attempt_count {T : Type} (r : Nat) (op : Nat → Except JSError T) :
    ((∀ i, i ≤ r → ∃ e, op i = Except.error e ∧ isRetryableError e = true) →
      (RetryHandler.execute r op).attempts = r + 1 ∧
      ∃ e, op r = Except.error e ∧
        (RetryHandler.execute r op).result = Except.error e) ∧
    (∀ j v, j ≤ r → op j = Except.ok v →
      (∀ i, i < j → ∃ e, op i = Except.error e ∧ isRetryableError e = true) →
      (RetryHandler.execute r op).result = Except.ok v ∧
      (RetryHandler.execute r op).attempts = j + 1) := by
  constructor
  · intro h
    obtain ⟨e, he, hexec⟩ := executeFrom_allfail op r 0 (fun i h1 h2 => h i (by omega))
    rw [Nat.zero_add] at he
    refine ⟨?_, e, he, ?_⟩
    · show (executeFrom op 0 r).attempts = r + 1
      rw [hexec]
    · show (executeFrom op 0 r).result = Except.error e
      rw [hexec]
  · intro j v hj hok hfail
    have hexec := executeFrom_success op j r 0 v hj (by rw [Nat.zero_add]; exact hok)
      (fun i h1 h2 => hfail i (by omega))
    constructor
    · show (executeFrom op 0 r).result = Except.ok v
      rw [hexec]
    · show (executeFrom op 0 r).attempts = j + 1
      rw [hexec]

theorem claim_C2_witness :
    (RetryHandler.execute 2
      (fun _ => (Except.error ⟨"E", "", some 500⟩ : Except JSError Nat))).attempts = 2 + 1 ∧
    (RetryHandler.execute 2
      (fun i => if i = 1 then Except.ok (7 : Nat)
                else Except.error ⟨"E", "", some 500⟩)).result = Except.ok 7 := by
  constructor
  · exact ((claim_C2_attempt_count 2
      (fun _ => (Except.error ⟨"E", "", some 500⟩ : Except JSError Nat))).1
      (fun i _ => ⟨⟨"E", "", some 500⟩, rfl, by decide⟩)).1
  · refine ((claim_C2_attempt_count 2
      (fun i => if i = 1 then Except.ok (7 : Nat)
                else Except.error ⟨"E", "", some 500⟩)).2 1 7 (by omega) rfl ?_).1
    intro i hi
    have h0 : i = 0 := by omega
    subst h0
    exact ⟨⟨"E", "", some 500⟩, rfl, by decide⟩

/-- Claim C3 counterexample: the classifier checks the network shape of an
error before its status, so the error with name TypeError carrying HTTP
status 404 is classified retryable, refuting the claim that every error with
a status in the 4xx range is non-retryable. -/
theorem claim_C3_counterexample :
    (JSError.mk "TypeError" "" (some 404)).status = some 404 ∧
    400 ≤ 404 ∧ 404 < 500 ∧
    isRetryableError (JSError.mk "TypeError" "" (some 404)) = true ∧
    ¬ (∀ e : JSError, ∀ s : Nat, e.status = some s → 400 ≤ s → s < 500 →
        isRetryableError e = false) := by
  refine ⟨rfl, by omega, by omega, by decide, fun h => ?_⟩
  exact absurd (h ⟨"TypeError", "", some 404⟩ 404 rfl (by omega) (by omega)) (by decide)

/-- Claim C3 (amended): every error carrying an HTTP status in the 4xx range
that is not network-shaped (name other than TypeError, message not mentioning
fetch) is classified non-retryable, and the retry engine propagates it after
exactly 1 attempt with no delay regardless of the configured retries; every
error with status at least 500 is retryable, every network-shaped error is
retryable (even when it carries a 4xx status), and errors with no usable
status default to retryable. -/
theorem claim_C3_amended {T : Type} (e : JSError) :
    (∀ s : Nat, e.status = some s → 400 ≤ s → s < 500 →
      e.name ≠ "TypeError" → strContains e.message "fetch" = false →
      isRetryableError e = false ∧
      ∀ (r : Nat) (op : Nat → Except JSError T), op 0 = Except.error e →
        (RetryHandler.execute r op).attempts = 1 ∧
        (RetryHandler.execute r op).result = Except.error e ∧
        (RetryHandler.execute r op).delays = []) ∧
    (∀ s : Nat, e.status = some s → 500 ≤ s → isRetryableError e = true) ∧
    (e.name = "TypeError" → isRetryableError e = true) ∧
    (strContains e.message "fetch" = true → isRetryableError e = true) ∧
    (e.status = none → isRetryableError e = true) ∧
    (∀ s : Nat, e.status = some s → s < 400 → isRetryableError e = true) := by
  refine ⟨?_, ?_, ?_, ?_, ?_, ?_⟩
  · intro s hs h4 h5 hname hfetch
    have hcls : isRetryableError e = false := by
      unfold isRetryableError
      rw [if_neg (fun hcon => by
        rcases hcon with h | h
        · exact hname h
        · rw [h] at hfetch; cases hfetch)]
      rw [hs]
      have hs0 : s ≠ 0 := by omega
      simp [hs0, h4, h5]
    refine ⟨hcls, fun r op h0 => ?_⟩
    have hx := executeFrom_nonretryable op 0 r e h0 hcls
    refine ⟨?_, ?_, ?_⟩
    · show (executeFrom op 0 r).attempts = 1
      rw [hx]
    · show (executeFrom op 0 r).result = Except.error e
      rw [hx]
    · show (executeFrom op 0 r).delays = []
      rw [hx]
  · intro s hs h5
    unfold isRetryableError
    split
    · rfl
    · rw [hs]
      have hs0 : s ≠ 0 := by omega
      have hno4 : ¬ (400 ≤ s ∧ s < 500) := by omega
      simp [hs0, hno4, h5]
  · intro hname
    unfold isRetryableError
    rw [if_pos (Or.inl hname)]
  · intro hfetch
    unfold isRetryableError
    rw [if_pos (Or.inr hfetch)]
  · intro hnone
    unfold isRetryableError
    split
    · rfl
    · rw [hnone]
  · intro s hs hlt
    unfold isRetryableError
    split
    · rfl
    · rw [hs]
      by_cases hs0 : s = 0
      · simp [hs0]
      · have hno4 : ¬ (400 ≤ s ∧ s < 500) := by omega
        have hno5 : ¬ (500 ≤ s) := by omega
        simp [hs0, hno4, hno5]

theorem claim_C3_witness :
    isRetryableError ⟨"Error", "HTTP 404: Bad Request", some 404⟩ = false ∧
    (RetryHandler.execute 3
      (fun _ => (Except.error ⟨"Error", "HTTP 404: Bad Request", some 404⟩ :
        Except JSError Nat))).attempts = 1 ∧
    isRetryableError ⟨"Error", "HTTP 500: oops", some 500⟩ = true ∧
    isRetryableError ⟨"TypeError", "failed to fetch", none⟩ = true := by
  have h := (@claim_C3_amended Nat ⟨"Error", "HTTP 404: Bad Request", some 404⟩).1
    404 rfl (by omega) (by omega) (by decide) (by decide)
  refine ⟨h.1, (h.2 3 _ rfl).1, ?_, ?_⟩
  · exact (@claim_C3_amended Nat ⟨"Error", "HTTP 500: oops", some 500⟩).2.1 500 rfl (by omega)
  · exact (@claim_C3_amended Nat ⟨"TypeError", "failed to fetch", none⟩).2.2.1 rfl

/-- Claim C4: the delay slept before retry i + 1 after the 0-indexed failing
attempt i is min(100 * 2 ^ i, 3000): 100, 200, 400, 800, 1600, then 3000 for
every further attempt; no delay is slept after a success or before
propagating a terminal error. -/
theorem claim_C4_backoff_schedule {T : Type} (r : Nat) (op : Nat → Except JSError T) :
    ((∀ i, i ≤ r → ∃ e, op i = Except.error e ∧ isRetryableError e = true) →
      (RetryHandler.execute r op).delays = (List.range r).map backoffDelay) ∧
    (∀ j v, j ≤ r → op j = Except.ok v →
      (∀ i, i < j → ∃ e, op i = Except.error e ∧ isRetryableError e = true) →
      (RetryHandler.execute r op).delays = (List.range j).map backoffDelay) ∧
    (∀ i, backoffDelay i = min (100 * 2 ^ i) 3000) ∧
    backoffDelay 0 = 100 ∧ backoffDelay 1 = 200 ∧ backoffDelay 2 = 400 ∧
    backoffDelay 3 = 800 ∧ backoffDelay 4 = 1600 ∧
    (∀ i, 5 ≤ i → backoffDelay i = 3000) ∧
    (∀ v, op 0 = Except.ok v → (RetryHandler.execute r op).delays = []) ∧
    (∀ e, op 0 = Except.error e → isRetryableError e = false →
      (RetryHandler.execute r op).delays = []) := by
  refine ⟨?_, ?_, fun i => rfl, rfl, rfl, rfl, rfl, rfl, ?_, ?_, ?_⟩
  · intro h
    obtain ⟨e, he, hexec⟩ := executeFrom_allfail op r 0 (fun i h1 h2 => h i (by omega))
    show (executeFrom op 0 r).delays = _
    rw [hexec, List.range_eq_range']
  · intro j v hj hok hfail
    have hexec := executeFrom_success op j r 0 v hj (by rw [Nat.zero_add]; exact hok)
      (fun i h1 h2 => hfail i (by omega))
    show (executeFrom op 0 r).delays = _
    rw [hexec, List.range_eq_range']
  · intro i hi
    have h32 : (2 : Nat) ^ 5 ≤ 2 ^ i := Nat.pow_le_pow_right (by omega) hi
    have hge : 3000 ≤ 100 * 2 ^ i := by
      have h1 : (3200 : Nat) = 100 * 2 ^ 5 := by norm_num
      have h2 : 100 * 2 ^ 5 ≤ 100 * 2 ^ i := Nat.mul_le_mul_left _ h32
      omega
    simp [backoffDelay, Nat.min_eq_right hge]
  · intro v hok
    have hx := executeFrom_ok op 0 r v hok
    show (executeFrom op 0 r).delays = []
    rw [hx]
  · intro e he hnr
    have hx := executeFrom_nonretryable op 0 r e he hnr
    show (executeFrom op 0 r).delays = []
    rw [hx]

theorem claim_C4_witness :
    (RetryHandler.execute 4
      (fun _ => (Except.error ⟨"E", "", some 503⟩ : Except JSError Nat))).delays
      = [100, 200, 400, 800] ∧
    backoffDelay 7 = 3000 := by
  constructor
  · have h := (claim_C4_backoff_schedule 4
      (fun _ => (Except.error ⟨"E", "", some 503⟩ : Except JSError Nat))).1
      (fun i _ => ⟨⟨"E", "", some 503⟩, rfl, by decide⟩)
    rw [h]
    rfl
  · exact (claim_C4_backoff_schedule 0
      (fun _ => (Except.error ⟨"E", "", some 503⟩ : Except JSError Nat))).2.2.2.2.2.2.2.2.1
      7 (by omega)

/-! ## Lemmas about object lookup, spread and merge -/

theorem optionOr_none (x : Option JsonValue) : Option.or x none = x := by
  cases x <;> rfl

theorem objLookup_cons_ne (k k1 : String) (v : JsonValue)
    (l : List (String × JsonValue)) (h : k1 ≠ k) :
    objLookup k ((k1, v) :: l) = objLookup k l := by
  simp [objLookup, h]

theorem objLookup_cons_eq (k1 : String) (v : JsonValue)
    (l : List (String × JsonValue)) :
    objLookup k1 ((k1, v) :: l) = some v := by
  simp [objLookup]

theorem objLookup_append (k : String) (l1 l2 : List (String × JsonValue)) :
    objLookup k (l1 ++ l2) = Option.or (objLookup k l1) (objLookup k l2) := by
  induction l1 with
  | nil => rfl
  | cons hd tl ih =>
    cases hd with
    | mk k1 v =>
      simp only [List.cons_append, objLookup]
      by_cases h : k1 = k
      · rw [if_pos h, if_pos h]
        rfl
      · rw [if_neg h, if_neg h]
        exact ih

theorem objLookup_filter_congr (k : String) (p q : String × JsonValue → Bool)
    (h : ∀ v, p (k, v) = q (k, v)) (l : List (String × JsonValue)) :
    objLookup k (l.filter p) = objLookup k (l.filter q) := by
  induction l with
  | nil => rfl
  | cons hd tl ih =>
    cases hd with
    | mk k1 v =>
      rw [List.filter_cons, List.filter_cons]
      by_cases hk : k1 = k
      · subst hk
        rw [h v]
        cases hq : q (k1, v)
        · show objLookup k1 (List.filter p tl) = objLookup k1 (List.filter q tl)
          exact ih
        · show objLookup k1 ((k1, v) :: List.filter p tl)
            = objLookup k1 ((k1, v) :: List.filter q tl)
          rw [objLookup_cons_eq, objLookup_cons_eq]
      · cases hp : p (k1, v) <;> cases hq : q (k1, v) <;>
          simp [objLookup, hk, ih]

theorem spreadObj_nil (a : List (String × JsonValue)) : spreadObj [] a = a := by
  show List.map _ [] ++ a.filter _ = a
  rw [List.map_nil, List.nil_append]
  exact List.filter_eq_self.mpr (fun x _ => rfl)

theorem spreadObj_cons (k1 : String) (v : JsonValue)
    (tl b : List (String × JsonValue)) :
    spreadObj ((k1, v) :: tl) b =
      (k1, match objLookup k1 b with | some w => w | none => v) ::
        (List.map (fun kv =>
            (kv.1, match objLookup kv.1 b with | some w => w | none => kv.2)) tl
          ++ List.filter (fun kv => (objLookup kv.1 ((k1, v) :: tl)).isNone) b) := rfl

/-- Key lookup on an object spread: the later object's binding wins, the
earlier object's binding is the fallback. -/
theorem objLookup_spreadObj (a b : List (String × JsonValue)) (k : String) :
    objLookup k (spreadObj a b) = Option.or (objLookup k b) (objLookup k a) := by
  induction a with
  | nil =>
    rw [spreadObj_nil]
    show objLookup k b = Option.or (objLookup k b) none
    rw [optionOr_none]
  | cons hd tl ih =>
    cases hd with
    | mk k1 v =>
      by_cases hk : k1 = k
      · subst hk
        rw [spreadObj_cons, objLookup_cons_eq, objLookup_cons_eq]
        cases hb : objLookup k1 b <;> simp [hb, Option.or]
      · rw [spreadObj_cons, objLookup_cons_ne k k1 _ _ hk, objLookup_append,
          objLookup_cons_ne k k1 v tl hk]
        have hfilter : objLookup k
            (List.filter (fun kv => (objLookup kv.1 ((k1, v) :: tl)).isNone) b)
            = objLookup k (List.filter (fun kv => (objLookup kv.1 tl).isNone) b) := by
          refine objLookup_filter_congr k _ _ (fun w => ?_) b
          show (objLookup k ((k1, v) :: tl)).isNone = (objLookup k tl).isNone
          rw [objLookup_cons_ne k k1 v tl hk]
        rw [hfilter]
        have ih2 : objLookup k
            (List.map (fun kv =>
              (kv.1, match objLookup kv.1 b with | some w => w | none => kv.2)) tl
              ++ List.filter (fun kv => (objLookup kv.1 tl).isNone) b)
            = Option.or (objLookup k b) (objLookup k tl) := ih
        rw [objLookup_append] at ih2
        rw [ih2]

/-- Claim C9: the metadata merge is a shallow union with later keys winning,
nested objects fully replaced, and undefined fragments contributing
nothing. -/
theorem claim_C9_merge_semantics (a b : MCPMetadata) :
    (∀ k, objLookup k (mergeMetadata [some a, some b])
        = Option.or (objLookup k b) (objLookup k a)) ∧
    mergeMetadata [some a, none] = mergeMetadata [some a] ∧
    mergeMetadata [none, some b] = b ∧
    mergeMetadata [some [("a", JsonValue.num 1), ("b", JsonValue.num 2)],
        some [("b", JsonValue.num 3), ("c", JsonValue.num 4)]]
      = [("a", JsonValue.num 1), ("b", JsonValue.num 3), ("c", JsonValue.num 4)] ∧
    mergeMetadata [none, some [("x", JsonValue.num 1)]] = [("x", JsonValue.num 1)] ∧
    mergeMetadata [none, none] = ([] : MCPMetadata) ∧
    mergeMetadata [some [("k", JsonValue.obj [("x", JsonValue.num 1)])],
        some [("k", JsonValue.obj [("y", JsonValue.num 2)])]]
      = [("k", JsonValue.obj [("y", JsonValue.num 2)])] := by
  refine ⟨?_, rfl, ?_, rfl, rfl, rfl, rfl⟩
  · intro k
    show objLookup k (spreadObj (spreadObj [] a) b) = _
    rw [spreadObj_nil, objLookup_spreadObj]
  · show spreadObj [] b = b
    exact spreadObj_nil b

/-- Claim C1: track never throws: it is total, returning success exactly when
the delivery pipeline succeeds and otherwise returning the pipeline's error
as data; the three convenience methods forward to track. -/
theorem claim_C1_track_total (retries : Nat)
    (attemptResult : MCPEventPayload → Nat → Except JSError DeliveryAck)
    (t : String) (ty : MCPEventType) (md : Option MCPMetadata) (d : Option Nat) :
    (∀ a, APIClient.sendEvent retries attemptResult (mkPayload t ty md d) = Except.ok a →
      MCPTracker.track retries attemptResult t ty md d
        = { success := true, error := none }) ∧
    (∀ e, APIClient.sendEvent retries attemptResult (mkPayload t ty md d) = Except.error e →
      MCPTracker.track retries attemptResult t ty md d
        = { success := false, error := some e }) ∧
    ((∀ i, i ≤ retries → ∃ e, attemptResult (mkPayload t ty md d) i = Except.error e ∧
        isRetryableError e = true) →
      ∃ e, attemptResult (mkPayload t ty md d) retries = Except.error e ∧
        MCPTracker.track retries attemptResult t ty md d
          = { success := false, error := some e }) ∧
    MCPTracker.trackInvocation retries attemptResult t md
      = MCPTracker.track retries attemptResult t MCPEventType.invocation md none ∧
    MCPTracker.trackSuccess retries attemptResult t md d
      = MCPTracker.track retries attemptResult t MCPEventType.success md d ∧
    MCPTracker.trackFailure retries attemptResult t md d
      = MCPTracker.track retries attemptResult t MCPEventType.failure md d := by
  refine ⟨?_, ?_, ?_, rfl, rfl, rfl⟩
  · intro a h
    unfold MCPTracker.track
    rw [h]
  · intro e h
    unfold MCPTracker.track
    rw [h]
  · intro h
    obtain ⟨e, he, hexec⟩ := executeFrom_allfail
      (fun i => attemptResult (mkPayload t ty md d) i) retries 0
      (fun i h1 h2 => h i (by omega))
    rw [Nat.zero_add] at he
    refine ⟨e, he, ?_⟩
    unfold MCPTracker.track
    have hsend : APIClient.sendEvent retries attemptResult (mkPayload t ty md d)
        = Except.error e := by
      show (executeFrom (fun i => attemptResult (mkPayload t ty md d) i) 0 retries).result
        = Except.error e
      rw [hexec]
    rw [hsend]

theorem claim_C1_witness :
    MCPTracker.track 1 (fun _ _ => Except.error ⟨"E", "boom", none⟩) "tool"
      MCPEventType.invocation none none
      = { success := false, error := some ⟨"E", "boom", none⟩ } :=
  (claim_C1_track_total 1 (fun _ _ => Except.error ⟨"E", "boom", none⟩) "tool"
    MCPEventType.invocation none none).2.1 ⟨"E", "boom", none⟩ (by rfl)

/-- Claim C5: with default options, wrapping a resolving function yields
exactly two delivery calls, invocation then success, calls the function once
with the original arguments, returns its result unchanged, and puts the
elapsed duration only on the success event. -/
theorem claim_C5_wrap_success (TParams TResult TMeta : Type) (toolName : String)
    (fn : TParams → TMeta → Except JSError TResult) (params : TParams) (meta : TMeta)
    (elapsed : Nat) (r : TResult) (h : fn params meta = Except.ok r) :
    MCPTracker.wrapRun toolName fn defaultWrapOptions params meta elapsed =
      { result := Except.ok (some r),
        events := [mkPayload toolName MCPEventType.invocation none none,
          mkPayload toolName MCPEventType.success (some []) (some elapsed)],
        fnCalls := [(params, meta)] } ∧
    (MCPTracker.wrapRun toolName fn defaultWrapOptions params meta elapsed).events.length
      = 2 ∧
    (MCPTracker.wrapRun toolName fn defaultWrapOptions params meta elapsed).events.map
      MCPEventPayload.event_type = [MCPEventType.invocation, MCPEventType.success] ∧
    (MCPTracker.wrapRun toolName fn defaultWrapOptions params meta elapsed).events.map
      MCPEventPayload.duration_ms = [none, some elapsed] := by
  have hrun : MCPTracker.wrapRun toolName fn defaultWrapOptions params meta elapsed =
      { result := Except.ok (some r),
        events := [mkPayload toolName MCPEventType.invocation none none,
          mkPayload toolName MCPEventType.success (some []) (some elapsed)],
        fnCalls := [(params, meta)] } := by
    simp only [MCPTracker.wrapRun, defaultWrapOptions, h]
    rfl
  refine ⟨hrun, ?_, ?_, ?_⟩ <;> rw [hrun] <;> rfl

theorem claim_C5_witness :
    MCPTracker.wrapRun "t" (fun (p : Nat) (m : Nat) => Except.ok (p + m))
        defaultWrapOptions 2 3 42 =
      { result := Except.ok (some 5),
        events := [mkPayload "t" MCPEventType.invocation none none,
          mkPayload "t" MCPEventType.success (some []) (some 42)],
        fnCalls := [(2, 3)] } :=
  (claim_C5_wrap_success Nat Nat Nat "t"
    (fun (p : Nat) (m : Nat) => Except.ok (p + m)) 2 3 42 5 rfl).1

/-- Claim C6: with default options, wrapping a throwing function yields
exactly two delivery calls, invocation then failure, and rejects with the
identical original error; with rethrowErrors false it instead resolves to
the undefined result, with the same two delivery calls. -/
theorem claim_C6_wrap_failure (TParams TResult TMeta : Type) (toolName : String)
    (fn : TParams → TMeta → Except JSError TResult) (params : TParams) (meta : TMeta)
    (elapsed : Nat) (e : JSError) (h : fn params meta = Except.error e) :
    MCPTracker.wrapRun toolName fn defaultWrapOptions params meta elapsed =
      { result := Except.error e,
        events := [mkPayload toolName MCPEventType.invocation none none,
          mkPayload toolName MCPEventType.failure (some []) (some elapsed)],
        fnCalls := [(params, meta)] } ∧
    MCPTracker.wrapRun toolName fn
        { defaultWrapOptions with rethrowErrors := false } params meta elapsed =
      { result := Except.ok none,
        events := [mkPayload toolName MCPEventType.invocation none none,
          mkPayload toolName MCPEventType.failure (some []) (some elapsed)],
        fnCalls := [(params, meta)] } ∧
    (MCPTracker.wrapRun toolName fn defaultWrapOptions params meta elapsed).events.length
      = 2 ∧
    (MCPTracker.wrapRun toolName fn defaultWrapOptions params meta elapsed).events.map
      MCPEventPayload.event_type = [MCPEventType.invocation, MCPEventType.failure] := by
  have hrun : MCPTracker.wrapRun toolName fn defaultWrapOptions params meta elapsed =
      { result := Except.error e,
        events := [mkPayload toolName MCPEventType.invocation none none,
          mkPayload toolName MCPEventType.failure (some []) (some elapsed)],
        fnCalls := [(params, meta)] } := by
    simp only [MCPTracker.wrapRun, defaultWrapOptions, h]
    rfl
  have hrun2 : MCPTracker.wrapRun toolName fn
      { defaultWrapOptions with rethrowErrors := false } params meta elapsed =
      { result := Except.ok none,
        events := [mkPayload toolName MCPEventType.invocation none none,
          mkPayload toolName MCPEventType.failure (some []) (some elapsed)],
        fnCalls := [(params, meta)] } := by
    simp only [MCPTracker.wrapRun, defaultWrapOptions, h]
    rfl
  refine ⟨hrun, hrun2, ?_, ?_⟩ <;> rw [hrun] <;> rfl

theorem claim_C6_witness :
    MCPTracker.wrapRun "t"
        (fun (_ : Nat) (_ : Nat) =>
          (Except.error ⟨"Error", "boom", none⟩ : Except JSError Nat))
        defaultWrapOptions 2 3 42 =
      { result := Except.error ⟨"Error", "boom", none⟩,
        events := [mkPayload "t" MCPEventType.invocation none none,
          mkPayload "t" MCPEventType.failure (some []) (some 42)],
        fnCalls := [(2, 3)] } ∧
    MCPTracker.wrapRun "t"
        (fun (_ : Nat) (_ : Nat) =>
          (Except.error ⟨"Error", "boom", none⟩ : Except JSError Nat))
        { defaultWrapOptions with rethrowErrors := false } 2 3 42 =
      { result := Except.ok none,
        events := [mkPayload "t" MCPEventType.invocation none none,
          mkPayload "t" MCPEventType.failure (some []) (some 42)],
        fnCalls := [(2, 3)] } := by
  have h := claim_C6_wrap_failure Nat Nat Nat "t"
    (fun (_ : Nat) (_ : Nat) =>
      (Except.error ⟨"Error", "boom", none⟩ : Except JSError Nat))
    2 3 42 ⟨"Error", "boom", none⟩ rfl
  exact ⟨h.1, h.2.1⟩

/-- Claim C7: each metadata extractor is isolated independently: a throwing
extractor leaves the run identical to one with that extractor absent (its
fragment undefined); the wrapped function always runs exactly once with the
original arguments and the outcome event always fires last. -/
theorem claim_C7_extractor_isolation (TParams TResult TMeta : Type) (toolName : String)
    (fn : TParams → TMeta → Except JSError TResult)
    (opts : WrapOptions TParams TResult TMeta) (params : TParams) (meta : TMeta)
    (elapsed : Nat) :
    (∀ g err, g params meta = Except.error err →
      MCPTracker.wrapRun toolName fn { opts with getMetadata := some g }
          params meta elapsed
        = MCPTracker.wrapRun toolName fn { opts with getMetadata := none }
          params meta elapsed) ∧
    (∀ g err r, fn params meta = Except.ok r → g r = Except.error err →
      MCPTracker.wrapRun toolName fn { opts with getOutputMetadata := some g }
          params meta elapsed
        = MCPTracker.wrapRun toolName fn { opts with getOutputMetadata := none }
          params meta elapsed) ∧
    (∀ g err e, fn params meta = Except.error e → g e = Except.error err →
      MCPTracker.wrapRun toolName fn { opts with getErrorMetadata := some g }
          params meta elapsed
        = MCPTracker.wrapRun toolName fn { opts with getErrorMetadata := none }
          params meta elapsed) ∧
    (MCPTracker.wrapRun toolName fn opts params meta elapsed).fnCalls
      = [(params, meta)] ∧
    (∃ ev, (MCPTracker.wrapRun toolName fn opts params meta elapsed).events.getLast?
        = some ev ∧
      ev.event_type = (match fn params meta with
        | Except.ok _ => MCPEventType.success
        | Except.error _ => MCPEventType.failure)) := by
  refine ⟨?_, ?_, ?_, ?_, ?_⟩
  · intro g err hg
    simp only [MCPTracker.wrapRun, hg]
  · intro g err r hfn hg
    simp only [MCPTracker.wrapRun, hfn, hg]
  · intro g err e hfn hg
    simp only [MCPTracker.wrapRun, hfn, hg]
  · cases hfn : fn params meta <;> simp [MCPTracker.wrapRun, hfn]
  · cases hfn : fn params meta <;>
      cases hti : opts.trackInvocation <;>
      simp [MCPTracker.wrapRun, hfn, hti] <;> rfl

theorem claim_C7_witness :
    @MCPTracker.wrapRun Nat Nat Nat "t" (fun p m => Except.ok (p + m))
        (WrapOptions.mk (some (fun _ _ => Except.error ⟨"E", "bad", none⟩))
          none none true true) 2 3 7
      = @MCPTracker.wrapRun Nat Nat Nat "t" (fun p m => Except.ok (p + m))
        (WrapOptions.mk none none none true true) 2 3 7 ∧
    @MCPTracker.wrapRun Nat Nat Nat "t" (fun p m => Except.ok (p + m))
        (WrapOptions.mk none (some (fun _ => Except.error ⟨"E", "bad", none⟩))
          none true true) 2 3 7
      = @MCPTracker.wrapRun Nat Nat Nat "t" (fun p m => Except.ok (p + m))
        (WrapOptions.mk none none none true true) 2 3 7 := by
  constructor
  · exact (claim_C7_extractor_isolation Nat Nat Nat "t"
      (fun p m => Except.ok (p + m)) defaultWrapOptions 2 3 7).1
      (fun _ _ => Except.error ⟨"E", "bad", none⟩) ⟨"E", "bad", none⟩ rfl
  · exact (claim_C7_extractor_isolation Nat Nat Nat "t"
      (fun p m => Except.ok (p + m)) defaultWrapOptions 2 3 7).2.1
      (fun _ => Except.error ⟨"E", "bad", none⟩) ⟨"E", "bad", none⟩ 5 rfl rfl

/-- Claim C10: success and failure events from a wrapped call always carry a
metadata field (the empty object when no extractor contributes), because the
merge always returns an object and the payload keeps any present object,
even empty; only a direct track call with metadata left undefined omits the
field. -/
theorem claim_C10_outcome_metadata (TParams TResult TMeta : Type) (toolName : String)
    (fn : TParams → TMeta → Except JSError TResult)
    (opts : WrapOptions TParams TResult TMeta) (params : TParams) (meta : TMeta)
    (elapsed : Nat) :
    (∀ ev, ev ∈ (MCPTracker.wrapRun toolName fn opts params meta elapsed).events →
      ev.event_type ≠ MCPEventType.invocation → ev.metadata.isSome = true) ∧
    (opts.getMetadata = none → opts.getOutputMetadata = none →
      opts.getErrorMetadata = none →
      ∀ ev, ev ∈ (MCPTracker.wrapRun toolName fn opts params meta elapsed).events →
        ev.event_type ≠ MCPEventType.invocation → ev.metadata = some []) ∧
    mergeMetadata [none, none] = ([] : MCPMetadata) ∧
    (∀ t2 ty d, (mkPayload t2 ty (some []) d).metadata = some []) ∧
    (∀ t2 ty d, (mkPayload t2 ty none d).metadata = none) := by
  refine ⟨?_, ?_, rfl, fun t2 ty d => rfl, fun t2 ty d => rfl⟩
  · intro ev hev hne
    cases hfn : fn params meta <;> cases hti : opts.trackInvocation <;>
      simp [MCPTracker.wrapRun, hfn, hti] at hev
    · subst hev; rfl
    · rcases hev with rfl | rfl
      · exact absurd rfl hne
      · rfl
    · subst hev; rfl
    · rcases hev with rfl | rfl
      · exact absurd rfl hne
      · rfl
  · intro hgm hom hem ev hev hne
    cases hfn : fn params meta <;> cases hti : opts.trackInvocation <;>
      simp [MCPTracker.wrapRun, hfn, hti, hgm, hom, hem] at hev
    · subst hev; rfl
    · rcases hev with rfl | rfl
      · exact absurd rfl hne
      · rfl
    · subst hev; rfl
    · rcases hev with rfl | rfl
      · exact absurd rfl hne
      · rfl

theorem claim_C10_witness :
    (mkPayload "t" MCPEventType.success (some []) (some 7)).metadata = some [] := by
  refine (claim_C10_outcome_metadata Nat Nat Nat "t"
    (fun (p : Nat) (m : Nat) => Except.ok (p + m)) defaultWrapOptions 2 3 7).2.1
    rfl rfl rfl (mkPayload "t" MCPEventType.success (some []) (some 7)) ?_ (by decide)
  exact List.mem_cons_of_mem (mkPayload "t" MCPEventType.invocation none none)
    (List.mem_cons_self (mkPayload "t" MCPEventType.success (some []) (some 7)) [])

/-- Claim C8: a delivery attempt on which the timeout timer fires is
cancelled via the abort controller and classified as a timeout error whose
message embeds the configured timeout value; that error is retryable, and
the timer is cleared on every exit path. -/
theorem claim_C8_timeout_attempt (timeout : Nat) (outcome : FetchOutcome) :
    (outcome = FetchOutcome.timedOut →
      (APIClient.sendEventOnce timeout outcome).result
          = Except.error (timeoutJSError timeout) ∧
      (APIClient.sendEventOnce timeout outcome).requestAborted = true ∧
      (timeoutJSError timeout).message
          = "Request timeout after " ++ toString timeout ++ "ms" ∧
      (∃ pre post, (timeoutJSError timeout).message = pre ++ toString timeout ++ post) ∧
      isRetryableError (timeoutJSError timeout) = true) ∧
    (APIClient.sendEventOnce timeout outcome).timerCleared = true := by
  constructor
  · intro h
    subst h
    refine ⟨rfl, rfl, rfl, ⟨"Request timeout after ", "ms", rfl⟩, ?_⟩
    unfold isRetryableError
    split
    · rfl
    · rfl
  · cases outcome <;> rfl

theorem claim_C8_witness :
    (APIClient.sendEventOnce 5000 FetchOutcome.timedOut).result
      = Except.error (timeoutJSError 5000) ∧
    isRetryableError (timeoutJSError 5000) = true ∧
    (timeoutJSError 5000).message = "Request timeout after 5000ms" := by
  have h := (claim_C8_timeout_attempt 5000 FetchOutcome.timedOut).1 rfl
  exact ⟨h.1, h.2.2.2.2, by decide⟩
